import Mathlib

/-!
# Verification of the ZePU Hive client (`zepu/distributed.py`, `zepu/wrapper.py`)

Shallow embedding of the Python Hive client of the ZePU project:
bytes are modelled as `List Nat` with every entry `< 256`, `struct.pack`
calls are translated field by field (Python `struct` with no byte-order
prefix uses NATIVE byte order, size and alignment; the host is a 64-bit
little-endian machine, so `'Q'` fields are aligned to 8 bytes and `'I'`
fields to 4, inserting zero padding exactly as a C compiler would),
sockets are modelled as byte streams (`List Nat`), and Python exceptions
as `Except` errors.
-/

namespace Zepu

/-- Little-endian encoding of `n % 256^k` into exactly `k` bytes. -/
def bytesLE : Nat → Nat → List Nat
  | 0, _ => []
  | k + 1, n => n % 256 :: bytesLE k (n / 256)

/-- Little-endian decoding of a byte list into a natural number. -/
def leNat : List Nat → Nat
  | [] => 0
  | b :: bs => b + 256 * leNat bs

theorem length_bytesLE (k n : Nat) : (bytesLE k n).length = k := by
  induction k generalizing n with
  | zero => rfl
  | succ k ih => simp [bytesLE, ih]

theorem leNat_bytesLE (k n : Nat) : leNat (bytesLE k n) = n % 256 ^ k := by
  induction k generalizing n with
  | zero => simp [bytesLE, leNat, Nat.mod_one]
  | succ k ih =>
      rw [bytesLE, leNat, ih, pow_succ, mul_comm (256 ^ k) 256, Nat.mod_mul]

theorem leNat_bytesLE_of_lt {k n : Nat} (h : n < 256 ^ k) :
    leNat (bytesLE k n) = n := by
  rw [leNat_bytesLE, Nat.mod_eq_of_lt h]

theorem take_bytesLE_append (k n : Nat) (rest : List Nat) :
    (bytesLE k n ++ rest).take k = bytesLE k n :=
  List.take_left' (length_bytesLE k n)

theorem drop_bytesLE_append (k n : Nat) (rest : List Nat) :
    (bytesLE k n ++ rest).drop k = rest :=
  List.drop_left' (length_bytesLE k n)

/-! ## `struct.pack` embeddings

Each `pack_*` definition embeds one `struct.pack` call of
`zepu/distributed.py`.  Python's `struct` module raises `struct.error`
on out-of-range field values; the embeddings are totalized by reducing
each field modulo its width (theorems carry in-range hypotheses, under
which the reduction is the identity). -/

/-- `struct.pack('II', a, b)` — two u32 LE, no padding (both 4-aligned). -/
def pack_II (a b : Nat) : List Nat :=
  bytesLE 4 a ++ bytesLE 4 b

/-- `struct.pack('IIII', a, b, c, d)` — four u32 LE, no padding. -/
def pack_IIII (a b c d : Nat) : List Nat :=
  bytesLE 4 a ++ bytesLE 4 b ++ bytesLE 4 c ++ bytesLE 4 d

/-- `struct.pack('Q', a)` — one u64 LE. -/
def pack_Q (a : Nat) : List Nat :=
  bytesLE 8 a

/-- `struct.pack('IQQ', a, b, c)` with native (`'@'`) alignment on a
64-bit little-endian host: u32, then FOUR ZERO PADDING BYTES to align
the first `'Q'` to an 8-byte boundary, then two u64 LE — 24 bytes in
total, matching the C struct `{uint32_t; uint64_t; uint64_t}` layout
of `vcpu_net_proto.h`. -/
def pack_IQQ (a b c : Nat) : List Nat :=
  bytesLE 4 a ++ [0, 0, 0, 0] ++ bytesLE 8 b ++ bytesLE 8 c

/-- `struct.pack('BBBxI', o, a, b, i)` — three u8, one explicit zero pad
byte, then u32 LE (aligned at offset 4): the 8-byte instruction slot. -/
def pack_BBBxI (o a b i : Nat) : List Nat :=
  [o % 256, a % 256, b % 256, 0] ++ bytesLE 4 i

/-! ## Protocol constants (`distributed.py`, lines 12-18) -/

def CMD_PING : Nat := 0
def CMD_SPAWN_VCPU : Nat := 1
def CMD_LOAD_PROG : Nat := 2
def CMD_RUN_CLUSTER : Nat := 3
def CMD_READ_MEM : Nat := 4
def CMD_WRITE_MEM : Nat := 5
def CMD_GET_STATS : Nat := 6

/-- The protocol magic constant of `_send_cmd`. -/
def MAGIC : Nat := 0x56435055

/-- Python exceptions raised by the client, as an error type:
`IndexError` from the explicit range check, `IndexError` from Python
list indexing, `RuntimeError(f"Remote Error: {status}")` (the numeric
status is carried verbatim), `ConnectionError("Socket closed")`, and
`struct.error` from `struct.unpack` on a wrong-sized buffer. -/
inductive HiveError where
  | idOutOfRange
  | pyIndexError
  | remoteError (status : Nat)
  | connectionClosed
  | structError
  deriving DecidableEq, Repr

deriving instance DecidableEq for Except

/-- `_send_cmd(sock, cmd, payload)`: the exact bytes written to the
socket — `struct.pack('IIII', magic, cmd, req_id=0, len(payload))`
followed by the payload. -/
def send_cmd (cmd : Nat) (payload : List Nat) : List Nat :=
  pack_IIII MAGIC cmd 0 payload.length ++ payload

/-- `_recv_all(sock, n)`: read exactly `n` bytes from the stream,
returning them and the rest of the stream; `ConnectionError` (modelled
as `none`) when the stream is exhausted first. -/
def recv_all (stream : List Nat) (n : Nat) : Option (List Nat × List Nat) :=
  if stream.length < n then none else some (stream.take n, stream.drop n)

/-- `_recv_resp(sock)`: read a 12-byte header `struct.unpack('III', ·)`
= (status, req_id, length); raise `RuntimeError` carrying the status
when it is not 200, otherwise read and return the `length`-byte payload
(`none` when `length = 0`).  The second component is the part of the
stream left unconsumed on the socket when the call returns or raises. -/
def recv_resp (stream : List Nat) :
    Except HiveError (Option (List Nat)) × List Nat :=
  match recv_all stream 12 with
  | none => (.error .connectionClosed, [])
  | some (hdr, rest) =>
      let status := leNat (hdr.take 4)
      let length := leNat (hdr.drop 8)
      if status ≠ 200 then (.error (.remoteError status), rest)
      else if 0 < length then
        match recv_all rest length with
        | none => (.error .connectionClosed, [])
        | some (payload, rest2) => (.ok (some payload), rest2)
      else (.ok none, rest)

/-- A well-formed 12-byte Hive response header,
`struct.pack('III', status, req_id, payload_len)`. -/
def respHeader (status reqId len : Nat) : List Nat :=
  bytesLE 4 status ++ bytesLE 4 reqId ++ bytesLE 4 len

/-! ## Sharding state and `spawn` -/

/-- The client state of `DistributedCluster` relevant to sharding:
the number of connected nodes (fixed at construction), the sharding map
`vcpu_map : global id → (node_index, local_vcpu_id)`, and each node
record's `vcpu_count` field. -/
structure HiveState where
  numNodes : Nat
  vcpu_map : List (Nat × Nat)
  vcpu_counts : List Nat
  deriving DecidableEq, Repr

/-- The state right after `__init__` succeeded with `M` connected nodes. -/
def initState (M : Nat) : HiveState :=
  ⟨M, [], List.replicate M 0⟩

/-- `count = count_per_node + (1 if i < remainder else 0)`
(`spawn`, line 60): the number of vCPUs spawned on node `i`. -/
def spawnCount (total M i : Nat) : Nat :=
  total / M + (if i < total % M then 1 else 0)

/-- The map entries `spawn(total, ·)` appends: iterating nodes
`i = 0..M-1` in order and, for each, appending `(i, local_id)` for
`local_id = 0..count-1` (a node with `count = 0` is `continue`d and
contributes nothing, which coincides with the empty inner list). -/
def spawnEntries (total M : Nat) : List (Nat × Nat) :=
  (List.range M).flatMap fun i =>
    (List.range (spawnCount total M i)).map fun localId => (i, localId)

/-- `spawn(total_vcpus, memory_size_kb)`: appends `spawnEntries` to
`vcpu_map` and adds each node's count to its `vcpu_count` field.
(The SPAWN_VCPU command bytes sent per node are
`send_cmd CMD_SPAWN_VCPU (pack_II count mem_kb)`; the claims under
verification concern the sharding map, so the state transition models
the map and counters.) -/
def spawn (st : HiveState) (total : Nat) : HiveState :=
  { st with
    vcpu_map := st.vcpu_map ++ spawnEntries total st.numNodes,
    vcpu_counts :=
      (List.range st.numNodes).zipWith
        (fun i c => c + spawnCount total st.numNodes i) st.vcpu_counts }

/-- A sequence of `spawn` calls, in order. -/
def spawnSeq (totals : List Nat) (st : HiveState) : HiveState :=
  totals.foldl spawn st

/-- Number of entries of the sharding map owned by node `i`. -/
def nodeCount (m : List (Nat × Nat)) (i : Nat) : Nat :=
  (m.filter fun e => e.1 = i).length

/-- The node-block contiguous map determined by per-node entry counts:
node `0`'s entries with local ids `0..count-1` first, then node `1`'s,
and so on.  A map is node-block contiguous with in-order local ids
exactly when it equals its own canonical form. -/
def canonicalMap (m : List (Nat × Nat)) (M : Nat) : List (Nat × Nat) :=
  (List.range M).flatMap fun i =>
    (List.range (nodeCount m i)).map fun localId => (i, localId)

/-! ## Python list indexing and the per-vCPU commands -/

/-- Python list indexing `l[i]` for an `int` index: non-negative
indices address from the front, negative indices address `l[len(l)+i]`,
and anything outside `[-len(l), len(l))` raises `IndexError` (`none`). -/
def pyGet {α : Type} (l : List α) (i : Int) : Option α :=
  if 0 ≤ i then l[i.toNat]?
  else if 0 ≤ (l.length : Int) + i then l[((l.length : Int) + i).toNat]?
  else none

/-- One instruction tuple `(opcode, reg_a, reg_b, immediate)` as passed
to `load_program`. -/
abbrev Instr := Nat × Nat × Nat × Nat

/-- The 8-byte encoding of one instruction,
`struct.pack('BBBxI', instr[0], instr[1], instr[2], instr[3])`
(`load_program`, line 101). -/
def encodeInstr (x : Instr) : List Nat :=
  pack_BBBxI x.1 x.2.1 x.2.2.1 x.2.2.2

/-- The concatenated instruction bytes accumulated by the
`for instr in instructions` loop of `load_program`. -/
def encodeInstrs (instrs : List Instr) : List Nat :=
  instrs.flatMap encodeInstr

/-- Modelled from the spec: the Hive node's decoder of one 8-byte
instruction slot `{opcode:u8, reg_a:u8, reg_b:u8, pad:u8,
immediate:u32 LE}` (§6 program encoding).  The server-side C decoder is
not part of the Python sources under verification. -/
def decodeInstr (bs : List Nat) : Instr :=
  (bs.getD 0 0, bs.getD 1 0, bs.getD 2 0, leNat ((bs.drop 4).take 4))

/-- `load_program(vcpu_id, instructions)`: reject `vcpu_id >= len(vcpu_map)`
with `IndexError` BEFORE anything is sent; otherwise look up
`vcpu_map[vcpu_id]` (Python indexing, so negative ids reach this point)
and send `LOAD_PROG` with payload
`struct.pack('II', local_id, len(instructions))` + instruction bytes to
the owning node.  The result carries the node index and the exact bytes
written to that node's socket; an `.error` result means no bytes were
sent anywhere and no state changed. -/
def load_program (st : HiveState) (vcpu_id : Int) (instrs : List Instr) :
    Except HiveError (Nat × List Nat) :=
  if (st.vcpu_map.length : Int) ≤ vcpu_id then .error .idOutOfRange
  else
    match pyGet st.vcpu_map vcpu_id with
    | none => .error .pyIndexError
    | some (nodeIdx, localId) =>
        .ok (nodeIdx,
          send_cmd CMD_LOAD_PROG
            (pack_II localId instrs.length ++ encodeInstrs instrs))

/-- `read_memory(vcpu_id, offset, size)`: same range check and routing
as `load_program`, then send `READ_MEM` with payload
`struct.pack('IQQ', local_id, offset, size)`.  The result carries the
node index and the exact request bytes written to that node's socket;
an `.error` result means no bytes were sent and no state changed. -/
def read_memory (st : HiveState) (vcpu_id : Int) (offset size : Nat) :
    Except HiveError (Nat × List Nat) :=
  if (st.vcpu_map.length : Int) ≤ vcpu_id then .error .idOutOfRange
  else
    match pyGet st.vcpu_map vcpu_id with
    | none => .error .pyIndexError
    | some (nodeIdx, localId) =>
        .ok (nodeIdx, send_cmd CMD_READ_MEM (pack_IQQ localId offset size))

/-- `Cluster.load_program` of `zepu/wrapper.py` (local, ctypes-backed
cluster): reject `vcpu_id >= vcpu_count` with `IndexError` before the
instruction array is built and before any engine call; otherwise the
engine is called on `vcpus[vcpu_id]` (returned as the routed index). -/
def cluster_load_program (vcpu_count : Nat) (vcpu_id : Int) :
    Except HiveError Int :=
  if (vcpu_count : Int) ≤ vcpu_id then .error .idOutOfRange
  else .ok vcpu_id

/-! ## `get_telemetry` -/

/-- `struct.unpack('QQ', data)`: two u64 LE; `struct.error` unless
`data` is exactly 16 bytes. -/
def unpack_QQ (data : List Nat) : Option (Nat × Nat) :=
  if data.length = 16 then some (leNat (data.take 8), leNat (data.drop 8))
  else none

/-- The `for node in self.nodes` loop of `get_telemetry`, node by node
in order: receive the node's response from its stream, skip a `None`
payload (`if data:`), otherwise `struct.unpack('QQ', data)` and
accumulate into `(total_instr, total_gpu)`. -/
def telemetryLoop :
    List (List Nat) → Nat → Nat → Except HiveError (Nat × Nat)
  | [], ti, tg => .ok (ti, tg)
  | s :: rest, ti, tg =>
      match (recv_resp s).1 with
      | .error e => .error e
      | .ok none => telemetryLoop rest ti tg
      | .ok (some data) =>
          match unpack_QQ data with
          | none => .error .structError
          | some (instr, gpu) => telemetryLoop rest (ti + instr) (tg + gpu)

/-- `get_telemetry()`: sequentially, for each connected node in order,
send `GET_STATS` with an empty payload (`b''`) and read that node's
response before moving to the next node; sum the parsed counters.
`streams` holds each node's pending response bytes; the second
component is the request written to each node's socket, in node order. -/
def get_telemetry (streams : List (List Nat)) :
    Except HiveError (Nat × Nat) × List (List Nat) :=
  (telemetryLoop streams 0 0, streams.map fun _ => send_cmd CMD_GET_STATS [])

/-! ## Sharding lemmas -/

theorem sum_const_add_indicator (q r : Nat) :
    ∀ n : Nat,
      ((List.range n).map fun i => q + if i < r then 1 else 0).sum
        = n * q + min n r := by
  intro n
  induction n with
  | zero => simp
  | succ k ih =>
      rw [List.range_succ, List.map_append, List.sum_append, ih]
      by_cases h : k < r
      · simp only [List.map_cons, List.map_nil, if_pos h]
        have h1 : min k r = k := Nat.min_eq_left (Nat.le_of_lt h)
        have h2 : min (k + 1) r = k + 1 := Nat.min_eq_left h
        rw [h1, h2, Nat.succ_mul]
        simp
        omega
      · simp only [List.map_cons, List.map_nil, if_neg h]
        have hrk : r ≤ k := Nat.le_of_not_lt h
        have h1 : min k r = r := Nat.min_eq_right hrk
        have h2 : min (k + 1) r = r := Nat.min_eq_right (Nat.le_succ_of_le hrk)
        rw [h1, h2, Nat.succ_mul]
        simp
        omega

theorem sum_spawnCount (total M : Nat) (hM : 1 ≤ M) :
    ((List.range M).map (spawnCount total M)).sum = total := by
  unfold spawnCount
  rw [sum_const_add_indicator]
  have hrem : total % M < M := Nat.mod_lt _ hM
  rw [Nat.min_eq_right (Nat.le_of_lt hrem)]
  exact Nat.div_add_mod total M

theorem length_spawnEntries (total M : Nat) (hM : 1 ≤ M) :
    (spawnEntries total M).length = total := by
  unfold spawnEntries
  rw [List.length_flatMap]
  simp only [Function.comp_def]
  have h : ((List.range M).map fun i =>
      ((List.range (spawnCount total M i)).map fun localId => (i, localId)).length)
      = (List.range M).map (spawnCount total M) := by
    apply List.map_congr_left
    intro i _
    rw [List.length_map, List.length_range]
  rw [h, sum_spawnCount total M hM]

theorem filter_block (i j c : Nat) :
    (((List.range c).map fun localId => (j, localId)).filter
      (fun e => e.1 = i)).length = if j = i then c else 0 := by
  rw [List.filter_map, List.length_map]
  by_cases h : j = i
  · subst h
    rw [List.filter_length_eq_length.mpr]
    · rw [List.length_range]
      simp
    · intro a _
      simp
  · rw [List.length_eq_zero.mpr]
    · simp [h]
    · apply List.filter_eq_nil_iff.mpr
      intro a _
      simp [h]

theorem sum_single_indicator (c i : Nat) :
    ∀ M, i < M →
      ((List.range M).map fun j => if j = i then c else 0).sum = c := by
  intro M
  induction M with
  | zero => omega
  | succ k ih =>
      intro hi
      rw [List.range_succ, List.map_append, List.sum_append]
      by_cases hk : i = k
      · subst hk
        have hz : (List.range i).map (fun j => if j = i then c else 0)
            = (List.range i).map fun _ => 0 := by
          apply List.map_congr_left
          intro j hj
          rw [List.mem_range] at hj
          simp [Nat.ne_of_lt hj]
        rw [hz]
        simp
      · rw [ih (by omega)]
        have hki : ¬(k = i) := fun h => hk h.symm
        simp [hki]

theorem nodeCount_spawnEntries (total M i : Nat) (hi : i < M) :
    nodeCount (spawnEntries total M) i = spawnCount total M i := by
  unfold nodeCount spawnEntries
  rw [List.filter_flatMap, List.length_flatMap]
  simp only [Function.comp_def]
  have h : ((List.range M).map fun j =>
        (((List.range (spawnCount total M j)).map fun localId => (j, localId)).filter
          (fun e => e.1 = i)).length)
      = (List.range M).map fun j => if j = i then spawnCount total M i else 0 := by
    apply List.map_congr_left
    intro j _
    rw [filter_block i j (spawnCount total M j)]
    by_cases h : j = i
    · subst h; simp
    · simp [h]
  rw [h]
  exact sum_single_indicator (spawnCount total M i) i M hi

theorem flatMap_congr_mem {α β : Type} {L : List α} {f g : α → List β}
    (h : ∀ x ∈ L, f x = g x) : L.flatMap f = L.flatMap g := by
  induction L with
  | nil => rfl
  | cons a t ih =>
      rw [List.flatMap_cons, List.flatMap_cons, h a (by simp)]
      rw [ih fun x hx => h x (by simp [hx])]

theorem spawnEntries_canonical (total M : Nat) :
    canonicalMap (spawnEntries total M) M = spawnEntries total M := by
  unfold canonicalMap
  conv_rhs => rw [spawnEntries]
  apply flatMap_congr_mem
  intro i hi
  rw [List.mem_range] at hi
  rw [nodeCount_spawnEntries total M i hi]

theorem spawn_initState_map (total M : Nat) :
    (spawn (initState M) total).vcpu_map = spawnEntries total M := by
  simp [spawn, initState]

/-! ## Claim theorems -/

/-- C1: for every `total_vcpus ≥ 0` and every cluster with `M ≥ 1`
connected nodes, `spawn(total_vcpus, mem)` assigns node `i` (0-indexed)
exactly `per_node + 1` vCPUs if `i < remainder` and `per_node`
otherwise, where `per_node = total / M` and `remainder = total % M`;
the per-node counts sum to `total` (the map has exactly `total`
entries), every count is `per_node` or `per_node + 1`, and exactly the
lowest-indexed `remainder` nodes receive the larger count. -/
theorem spawn_shard_counts (total M : Nat) (hM : 1 ≤ M) :
    (∀ i, i < M →
      nodeCount (spawn (initState M) total).vcpu_map i
        = total / M + (if i < total % M then 1 else 0))
    ∧ (spawn (initState M) total).vcpu_map.length = total
    ∧ (∀ i, i < M →
        nodeCount (spawn (initState M) total).vcpu_map i = total / M
        ∨ nodeCount (spawn (initState M) total).vcpu_map i = total / M + 1)
    ∧ (∀ i, i < M →
        (nodeCount (spawn (initState M) total).vcpu_map i = total / M + 1
          ↔ i < total % M)) := by
  rw [spawn_initState_map]
  refine ⟨?_, length_spawnEntries total M hM, ?_, ?_⟩
  · intro i hi
    rw [nodeCount_spawnEntries total M i hi]
    rfl
  · intro i hi
    rw [nodeCount_spawnEntries total M i hi]
    unfold spawnCount
    by_cases h : i < total % M
    · right; rw [if_pos h]
    · left; rw [if_neg h]; omega
  · intro i hi
    rw [nodeCount_spawnEntries total M i hi]
    unfold spawnCount
    by_cases h : i < total % M
    · rw [if_pos h]; simp [h]
    · rw [if_neg h]; simp [h]

/-- Witness for C1 at `total = 5`, `M = 2`: the map has 5 entries,
node 0 owns 3 of them and node 1 owns 2. -/
theorem spawn_shard_counts_witness :
    (spawn (initState 2) 5).vcpu_map.length = 5
    ∧ nodeCount (spawn (initState 2) 5).vcpu_map 0 = 5 / 2 + 1
    ∧ nodeCount (spawn (initState 2) 5).vcpu_map 1 = 5 / 2 :=
  ⟨(spawn_shard_counts 5 2 (by decide)).2.1,
   ((spawn_shard_counts 5 2 (by decide)).2.2.2 0 (by decide)).mpr (by decide),
   ((spawn_shard_counts 5 2 (by decide)).2.2.1 1 (by decide)).resolve_right
     (by decide)⟩

/-- C5 as stated is FALSE: it quantifies over "any sequence of spawn
calls", but a second `spawn` restarts local ids at 0 and appends a
fresh node-0 block after the previous blocks.  Concretely, on a 1-node
cluster, `spawn(1)` followed by `spawn(1)` yields
`vcpu_map = [(0, 0), (0, 0)]`, whose node-0 block repeats local id 0
instead of holding local ids `0, 1` — the map is not node-block
contiguous with in-order local ids. -/
theorem vcpu_map_multi_spawn_claim_false :
    ¬ ((spawnSeq [1, 1] (initState 1)).vcpu_map
        = canonicalMap (spawnSeq [1, 1] (initState 1)).vcpu_map 1) := by
  decide

/-- C5 (amended): after a SINGLE `spawn` call on a fresh cluster with
`M ≥ 1` nodes, the sharding map has exactly `total` entries and is
node-block contiguous: it equals its canonical form — node indices in
non-decreasing order, local ids `0..count-1` in increasing order within
each node's block, zero-count nodes contributing no entries; moreover
every `spawn` call only appends to the existing map. -/
theorem vcpu_map_single_spawn_contiguous (total M t : Nat) (st : HiveState)
    (hM : 1 ≤ M) :
    (spawn (initState M) total).vcpu_map.length = total
    ∧ (spawn (initState M) total).vcpu_map
        = canonicalMap (spawn (initState M) total).vcpu_map M
    ∧ ∃ tail, (spawn st t).vcpu_map = st.vcpu_map ++ tail := by
  rw [spawn_initState_map]
  exact ⟨length_spawnEntries total M hM,
    (spawnEntries_canonical total M).symm,
    ⟨spawnEntries t st.numNodes, rfl⟩⟩

/-- Witness for C5 (amended) at `total = 3`, `M = 2`: the single-spawn
map is `[(0, 0), (0, 1), (1, 0)]`, which is canonical. -/
theorem vcpu_map_single_spawn_contiguous_witness :
    (spawn (initState 2) 3).vcpu_map.length = 3
    ∧ (spawn (initState 2) 3).vcpu_map
        = canonicalMap (spawn (initState 2) 3).vcpu_map 2 :=
  ⟨(vcpu_map_single_spawn_contiguous 3 2 0 (initState 2) (by decide)).1,
   (vcpu_map_single_spawn_contiguous 3 2 0 (initState 2) (by decide)).2.1⟩

theorem drop_bytesLE_append_add (k n j : Nat) (rest : List Nat) :
    (bytesLE k n ++ rest).drop (k + j) = rest.drop j := by
  rw [← List.drop_drop, drop_bytesLE_append]

/-- C3: for every `(opcode, reg_a, reg_b, immediate)` with the three
register fields below `2^8` and the immediate below `2^32`, the encoder
emits exactly the 8-byte slot `[opcode, reg_a, reg_b, 0]` followed by
the immediate as u32 LE, and decoding that slot recovers the original
tuple exactly. -/
theorem instr_encode_roundtrip (o a b i : Nat)
    (ho : o < 2 ^ 8) (ha : a < 2 ^ 8) (hb : b < 2 ^ 8) (hi : i < 2 ^ 32) :
    encodeInstr (o, a, b, i) = [o, a, b, 0] ++ bytesLE 4 i
    ∧ (encodeInstr (o, a, b, i)).length = 8
    ∧ decodeInstr (encodeInstr (o, a, b, i)) = (o, a, b, i) := by
  have ho' : o % 256 = o := Nat.mod_eq_of_lt (by omega)
  have ha' : a % 256 = a := Nat.mod_eq_of_lt (by omega)
  have hb' : b % 256 = b := Nat.mod_eq_of_lt (by omega)
  have henc : encodeInstr (o, a, b, i) = [o, a, b, 0] ++ bytesLE 4 i := by
    simp [encodeInstr, pack_BBBxI, ho', ha', hb']
  refine ⟨henc, ?_, ?_⟩
  · rw [henc]
    simp [length_bytesLE]
  · rw [henc]
    unfold decodeInstr
    have hdrop : (([o, a, b, 0] ++ bytesLE 4 i).drop 4).take 4 = bytesLE 4 i := by
      rw [List.drop_left' (by rfl)]
      exact List.take_of_length_le (le_of_eq (length_bytesLE 4 i).symm)
    rw [hdrop]
    have hle : leNat (bytesLE 4 i) = i := by
      apply leNat_bytesLE_of_lt
      have h : (256 : Nat) ^ 4 = 2 ^ 32 := by norm_num
      omega
    simp [hle]

/-- Witness for C3 at `(5, 6, 7, 300)`: encoding yields
`[5, 6, 7, 0, 44, 1, 0, 0]` and decoding recovers `(5, 6, 7, 300)`. -/
theorem instr_encode_roundtrip_witness :
    decodeInstr (encodeInstr (5, 6, 7, 300)) = (5, 6, 7, 300) :=
  (instr_encode_roundtrip 5 6 7 300 (by norm_num) (by norm_num) (by norm_num)
    (by norm_num)).2.2

/-- C8: every request `_send_cmd` writes to a socket is a 16-byte
header — magic u32 LE equal to `0x56435055`, command u32 LE,
request_id u32 LE (always 0), payload_length u32 LE — followed by
exactly the payload bytes, for every command and payload. -/
theorem send_cmd_framing (cmd : Nat) (payload : List Nat)
    (hc : cmd < 2 ^ 32) (hp : payload.length < 2 ^ 32) :
    (send_cmd cmd payload).length = 16 + payload.length
    ∧ leNat ((send_cmd cmd payload).take 4) = MAGIC
    ∧ leNat (((send_cmd cmd payload).drop 4).take 4) = cmd
    ∧ leNat (((send_cmd cmd payload).drop 8).take 4) = 0
    ∧ leNat (((send_cmd cmd payload).drop 12).take 4) = payload.length
    ∧ (send_cmd cmd payload).drop 16 = payload := by
  have h4 : (256 : Nat) ^ 4 = 2 ^ 32 := by norm_num
  have hs : send_cmd cmd payload
      = bytesLE 4 MAGIC ++ (bytesLE 4 cmd ++ (bytesLE 4 0
          ++ (bytesLE 4 payload.length ++ payload))) := by
    simp [send_cmd, pack_IIII, List.append_assoc]
  have d4 : (send_cmd cmd payload).drop 4
      = bytesLE 4 cmd ++ (bytesLE 4 0 ++ (bytesLE 4 payload.length ++ payload)) := by
    rw [hs, drop_bytesLE_append]
  have d8 : (send_cmd cmd payload).drop 8
      = bytesLE 4 0 ++ (bytesLE 4 payload.length ++ payload) := by
    rw [show (8 : Nat) = 4 + 4 from rfl, ← List.drop_drop, d4, drop_bytesLE_append]
  have d12 : (send_cmd cmd payload).drop 12
      = bytesLE 4 payload.length ++ payload := by
    rw [show (12 : Nat) = 8 + 4 from rfl, ← List.drop_drop, d8, drop_bytesLE_append]
  have d16 : (send_cmd cmd payload).drop 16 = payload := by
    rw [show (16 : Nat) = 12 + 4 from rfl, ← List.drop_drop, d12, drop_bytesLE_append]
  refine ⟨?_, ?_, ?_, ?_, ?_, d16⟩
  · rw [hs]
    simp [List.length_append, length_bytesLE]
    omega
  · rw [hs, take_bytesLE_append]
    exact leNat_bytesLE_of_lt (by norm_num [MAGIC])
  · rw [d4, take_bytesLE_append]
    exact leNat_bytesLE_of_lt (by omega)
  · rw [d8, take_bytesLE_append]
    exact leNat_bytesLE_of_lt (by norm_num)
  · rw [d12, take_bytesLE_append]
    exact leNat_bytesLE_of_lt (by omega)

/-- Witness for C8 at the `GET_STATS` request (`cmd = 6`, empty
payload): 16 bytes on the wire, magic and length fields as framed. -/
theorem send_cmd_framing_witness :
    (send_cmd 6 []).length = 16 + ([] : List Nat).length
    ∧ leNat ((send_cmd 6 []).take 4) = MAGIC :=
  ⟨(send_cmd_framing 6 [] (by norm_num) (by norm_num)).1,
   (send_cmd_framing 6 [] (by norm_num) (by norm_num)).2.1⟩

/-- The 20-byte payload C2 asserts (the claim's words, for comparison
with the source embedding `pack_IQQ`): local_id u32 LE, then offset
u64 LE, then size u64 LE, with no padding between fields. -/
def claimedReadMemoryPayload (localId offset size : Nat) : List Nat :=
  bytesLE 4 localId ++ bytesLE 8 offset ++ bytesLE 8 size

/-- C2 as stated is FALSE: `struct.pack('IQQ', ...)` uses Python's
native (`'@'`) mode, which inserts 4 alignment padding bytes between
the u32 and the first u64 on a 64-bit host, so the payload is 24
bytes, not the claimed padding-free 20-byte sequence.  Concretely, on
a 1-node cluster with one spawned vCPU, `read_memory(0, 2, 3)` does
not put the claimed 20-byte payload on the wire. -/
theorem read_memory_payload_claim_false :
    ¬ (read_memory (spawn (initState 1) 1) 0 2 3
        = .ok (0, send_cmd CMD_READ_MEM (claimedReadMemoryPayload 0 2 3))) := by
  decide

/-- C2 (amended): for every `read_memory(vcpu_id, offset, size)` call
with a valid `vcpu_id` resolving to `(node, local_id)`, the request
payload sent on the wire is exactly the 24-byte sequence: `local_id`
as u32 LE, then 4 zero padding bytes (native struct alignment of the
first u64, matching the C struct of `vcpu_net_proto.h`), then `offset`
as u64 LE, then `size` as u64 LE. -/
theorem read_memory_payload_layout (st : HiveState) (vcpu_id : Int)
    (offset size ni li : Nat)
    (hmap : pyGet st.vcpu_map vcpu_id = some (ni, li))
    (hlt : vcpu_id < (st.vcpu_map.length : Int))
    (hli : li < 2 ^ 32) (ho : offset < 2 ^ 64) (hs : size < 2 ^ 64) :
    read_memory st vcpu_id offset size
      = .ok (ni, send_cmd CMD_READ_MEM (pack_IQQ li offset size))
    ∧ (pack_IQQ li offset size).length = 24
    ∧ leNat ((pack_IQQ li offset size).take 4) = li
    ∧ ((pack_IQQ li offset size).drop 4).take 4 = [0, 0, 0, 0]
    ∧ leNat (((pack_IQQ li offset size).drop 8).take 8) = offset
    ∧ leNat ((pack_IQQ li offset size).drop 16) = size := by
  have hassoc : pack_IQQ li offset size
      = bytesLE 4 li ++ (bytesLE 4 0 ++ (bytesLE 8 offset ++ bytesLE 8 size)) := by
    simp [pack_IQQ, List.append_assoc]
    rfl
  have d4 : (pack_IQQ li offset size).drop 4
      = bytesLE 4 0 ++ (bytesLE 8 offset ++ bytesLE 8 size) := by
    rw [hassoc, drop_bytesLE_append]
  have d8 : (pack_IQQ li offset size).drop 8
      = bytesLE 8 offset ++ bytesLE 8 size := by
    rw [show (8 : Nat) = 4 + 4 from rfl, ← List.drop_drop, d4, drop_bytesLE_append]
  have d16 : (pack_IQQ li offset size).drop 16 = bytesLE 8 size := by
    rw [show (16 : Nat) = 8 + 8 from rfl, ← List.drop_drop, d8, drop_bytesLE_append]
  have h64 : (256 : Nat) ^ 8 = 2 ^ 64 := by norm_num
  refine ⟨?_, ?_, ?_, ?_, ?_, ?_⟩
  · unfold read_memory
    rw [if_neg (not_le.mpr hlt), hmap]
  · rw [hassoc]
    simp [List.length_append, length_bytesLE]
  · rw [hassoc, take_bytesLE_append]
    exact leNat_bytesLE_of_lt (by omega)
  · rw [d4, take_bytesLE_append]
    rfl
  · rw [d8, take_bytesLE_append]
    exact leNat_bytesLE_of_lt (by omega)
  · rw [d16]
    exact leNat_bytesLE_of_lt (by omega)

/-- Witness for C2 (amended): on a 1-node cluster with one spawned
vCPU, `read_memory(0, 2, 3)` sends the `READ_MEM` request whose
payload is the 24-byte padded sequence for `(local_id 0, offset 2,
size 3)`. -/
theorem read_memory_payload_layout_witness :
    read_memory (spawn (initState 1) 1) 0 2 3
      = .ok (0, send_cmd CMD_READ_MEM (pack_IQQ 0 2 3))
    ∧ (pack_IQQ 0 2 3).length = 24 :=
  ⟨(read_memory_payload_layout (spawn (initState 1) 1) 0 2 3 0 0 (by decide)
      (by decide) (by norm_num) (by norm_num) (by norm_num)).1,
   (read_memory_payload_layout (spawn (initState 1) 1) 0 2 3 0 0 (by decide)
      (by decide) (by norm_num) (by norm_num) (by norm_num)).2.1⟩

/-! ## Response parsing lemmas -/

theorem respHeader_length (status reqId len : Nat) :
    (respHeader status reqId len).length = 12 := by
  simp [respHeader, List.length_append, length_bytesLE]

theorem respHeader_take4 (status reqId len : Nat) :
    (respHeader status reqId len).take 4 = bytesLE 4 status := by
  rw [respHeader, List.append_assoc, take_bytesLE_append]

theorem respHeader_drop8 (status reqId len : Nat) :
    (respHeader status reqId len).drop 8 = bytesLE 4 len := by
  rw [respHeader, List.append_assoc,
    show (8 : Nat) = 4 + 4 from rfl, ← List.drop_drop,
    drop_bytesLE_append, drop_bytesLE_append]

/-- Behaviour of `_recv_resp` on a stream holding one complete,
well-formed response followed by anything. -/
theorem recv_resp_complete (status reqId : Nat) (payload rest : List Nat)
    (hst : status < 256 ^ 4) (hlen : payload.length < 256 ^ 4) :
    recv_resp (respHeader status reqId payload.length ++ (payload ++ rest))
      = if status ≠ 200 then (.error (.remoteError status), payload ++ rest)
        else if 0 < payload.length then (.ok (some payload), rest)
        else (.ok none, rest) := by
  have htake : (respHeader status reqId payload.length ++ (payload ++ rest)).take 12
      = respHeader status reqId payload.length :=
    List.take_left' (respHeader_length status reqId payload.length)
  have hdrop : (respHeader status reqId payload.length ++ (payload ++ rest)).drop 12
      = payload ++ rest :=
    List.drop_left' (respHeader_length status reqId payload.length)
  have hlong : ¬ ((respHeader status reqId payload.length ++ (payload ++ rest)).length < 12) := by
    rw [List.length_append, respHeader_length]
    omega
  unfold recv_resp recv_all
  rw [if_neg hlong]
  simp only [htake, hdrop, respHeader_take4, respHeader_drop8,
    leNat_bytesLE_of_lt hst, leNat_bytesLE_of_lt hlen]
  by_cases hs : status ≠ 200
  · rw [if_pos hs, if_pos hs]
  · rw [if_neg hs, if_neg hs]
    by_cases hp : 0 < payload.length
    · rw [if_pos hp, if_pos hp]
      have hnl : ¬ ((payload ++ rest).length < payload.length) := by
        rw [List.length_append]
        omega
      rw [if_neg hnl, List.take_left, List.drop_left]
    · rw [if_neg hp, if_neg hp]
      have hnil : payload = [] := List.eq_nil_of_length_eq_zero (by omega)
      subst hnil
      rfl

/-- The status `_recv_resp` acts on is whatever the first 4 bytes of
the stream decode to, whenever at least 12 bytes are available: the
parser has no resynchronization and trusts the stream position. -/
theorem recv_resp_reads_leading_status (s : List Nat)
    (h12 : 12 ≤ s.length) (hne : leNat (s.take 4) ≠ 200) :
    (recv_resp s).1 = .error (.remoteError (leNat (s.take 4))) := by
  have htt : (s.take 12).take 4 = s.take 4 := by
    rw [List.take_take]
    norm_num
  unfold recv_resp recv_all
  rw [if_neg (by omega)]
  simp only [htt]
  rw [if_pos hne]

/-- C4: for every complete response arriving on a connection, a status
other than 200 raises an error that carries the numeric status code
verbatim and returns no payload to the caller, while a status of 200
returns the payload (`none` when `payload_length = 0`) without
raising. -/
theorem recv_resp_status_handling (status reqId : Nat)
    (payload rest : List Nat)
    (hst : status < 2 ^ 32) (hlen : payload.length < 2 ^ 32) :
    (status ≠ 200 →
      (recv_resp (respHeader status reqId payload.length ++ (payload ++ rest))).1
        = .error (.remoteError status))
    ∧ (status = 200 →
      (recv_resp (respHeader status reqId payload.length ++ (payload ++ rest))).1
        = .ok (if payload.length = 0 then none else some payload)) := by
  have h4 : (256 : Nat) ^ 4 = 2 ^ 32 := by norm_num
  have hc := recv_resp_complete status reqId payload rest (by omega) (by omega)
  constructor
  · intro hs
    rw [hc, if_pos hs]
  · intro hs
    rw [hc, if_neg (by simp [hs])]
    by_cases hp : 0 < payload.length
    · rw [if_pos hp, if_neg (by omega)]
    · rw [if_neg hp, if_pos (by omega)]

/-- Witness for C4: a `status = 500` response with a 1-byte payload
raises `remoteError 500`; a `status = 200` response with payload
`[7, 7]` returns it. -/
theorem recv_resp_status_handling_witness :
    (recv_resp (respHeader 500 0 ([9] : List Nat).length ++ ([9] ++ []))).1
      = .error (.remoteError 500)
    ∧ (recv_resp (respHeader 200 0 ([7, 7] : List Nat).length ++ ([7, 7] ++ []))).1
      = .ok (some [7, 7]) :=
  ⟨(recv_resp_status_handling 500 0 [9] [] (by norm_num) (by norm_num)).1
      (by norm_num),
   (recv_resp_status_handling 200 0 [7, 7] [] (by norm_num) (by norm_num)).2
      rfl⟩

/-- C10: when a response with `status ≠ 200` and a non-zero
`payload_length` arrives, `_recv_resp` raises after consuming only the
12-byte header: the error payload stays unconsumed on the connection,
and a subsequent `_recv_resp` on that connection parses whatever bytes
now lead the stream — the leftover payload — as its own response
header. -/
theorem recv_resp_error_unconsumed (status reqId : Nat)
    (payload rest : List Nat)
    (hst : status < 2 ^ 32) (hlen : payload.length < 2 ^ 32)
    (hs : status ≠ 200) (hp : 0 < payload.length) :
    recv_resp (respHeader status reqId payload.length ++ (payload ++ rest))
      = (.error (.remoteError status), payload ++ rest)
    ∧ (12 ≤ (payload ++ rest).length → leNat ((payload ++ rest).take 4) ≠ 200 →
        (recv_resp (payload ++ rest)).1
          = .error (.remoteError (leNat ((payload ++ rest).take 4)))) := by
  have h4 : (256 : Nat) ^ 4 = 2 ^ 32 := by norm_num
  refine ⟨?_, fun h12 hne => recv_resp_reads_leading_status _ h12 hne⟩
  rw [recv_resp_complete status reqId payload rest (by omega) (by omega), if_pos hs]

/-- Witness for C10: after a `status = 500` response whose 12-byte
payload is left on the socket, the next `_recv_resp` misparses those
leftover bytes as a header with status 1. -/
theorem recv_resp_error_unconsumed_witness :
    recv_resp (respHeader 500 0 ([1, 0, 0, 0, 0, 0, 0, 0, 2, 0, 0, 0] : List Nat).length
        ++ ([1, 0, 0, 0, 0, 0, 0, 0, 2, 0, 0, 0] ++ []))
      = (.error (.remoteError 500), [1, 0, 0, 0, 0, 0, 0, 0, 2, 0, 0, 0] ++ [])
    ∧ (recv_resp (([1, 0, 0, 0, 0, 0, 0, 0, 2, 0, 0, 0] : List Nat) ++ [])).1
      = .error (.remoteError (leNat ((([1, 0, 0, 0, 0, 0, 0, 0, 2, 0, 0, 0] : List Nat) ++ []).take 4))) :=
  ⟨(recv_resp_error_unconsumed 500 0 [1, 0, 0, 0, 0, 0, 0, 0, 2, 0, 0, 0] []
      (by norm_num) (by norm_num) (by norm_num) (by norm_num)).1,
   (recv_resp_error_unconsumed 500 0 [1, 0, 0, 0, 0, 0, 0, 0, 2, 0, 0, 0] []
      (by norm_num) (by norm_num) (by norm_num) (by norm_num)).2
      (by norm_num) (by decide)⟩

/-! ## Telemetry lemmas -/

theorem unpack_QQ_bytes (a b : Nat) (ha : a < 2 ^ 64) (hb : b < 2 ^ 64) :
    unpack_QQ (bytesLE 8 a ++ bytesLE 8 b) = some (a, b) := by
  have h8 : (256 : Nat) ^ 8 = 2 ^ 64 := by norm_num
  unfold unpack_QQ
  rw [if_pos (by rw [List.length_append, length_bytesLE, length_bytesLE])]
  rw [take_bytesLE_append, drop_bytesLE_append,
    leNat_bytesLE_of_lt (by omega), leNat_bytesLE_of_lt (by omega)]

/-- One node's well-formed `GET_STATS` response stream: status 200,
16-byte payload of two u64 LE counters. -/
def statsStream (p : Nat × Nat) : List Nat :=
  respHeader 200 0 16 ++ (bytesLE 8 p.1 ++ bytesLE 8 p.2)

theorem telemetryLoop_sums (stats : List (Nat × Nat)) :
    ∀ ti tg, (∀ p ∈ stats, p.1 < 2 ^ 64 ∧ p.2 < 2 ^ 64) →
      telemetryLoop (stats.map statsStream) ti tg
        = .ok (ti + (stats.map Prod.fst).sum, tg + (stats.map Prod.snd).sum) := by
  induction stats with
  | nil =>
      intro ti tg _
      simp [telemetryLoop]
  | cons p t ih =>
      intro ti tg hbnd
      have hp := hbnd p (by simp)
      have hlen16 : (bytesLE 8 p.1 ++ bytesLE 8 p.2).length = 16 := by
        rw [List.length_append, length_bytesLE, length_bytesLE]
      have hresp : recv_resp (statsStream p)
          = (.ok (some (bytesLE 8 p.1 ++ bytesLE 8 p.2)), []) := by
        have hc := recv_resp_complete 200 0 (bytesLE 8 p.1 ++ bytesLE 8 p.2) []
          (by norm_num) (by rw [hlen16]; norm_num)
        rw [hlen16] at hc
        rw [List.append_nil] at hc
        rw [statsStream, hc, if_neg (by norm_num), if_pos (by norm_num)]
      rw [List.map_cons, telemetryLoop, hresp]
      simp only [unpack_QQ_bytes p.1 p.2 hp.1 hp.2]
      rw [ih (ti + p.1) (tg + p.2) fun q hq => hbnd q (by simp [hq])]
      simp only [List.map_cons, List.sum_cons]
      rw [Nat.add_assoc, Nat.add_assoc]

/-- C6: `get_telemetry` sends `GET_STATS` with an empty payload to
every connected node sequentially in node order, and returns the
element-wise sums over all nodes of the two u64 counters parsed from
each node's 16-byte response payload. -/
theorem get_telemetry_sums (stats : List (Nat × Nat))
    (hbnd : ∀ p ∈ stats, p.1 < 2 ^ 64 ∧ p.2 < 2 ^ 64) :
    get_telemetry (stats.map statsStream)
      = (.ok ((stats.map Prod.fst).sum, (stats.map Prod.snd).sum),
         List.replicate stats.length (send_cmd CMD_GET_STATS [])) := by
  unfold get_telemetry
  rw [telemetryLoop_sums stats 0 0 hbnd]
  simp [List.map_map, Function.comp_def, List.map_const']

/-- Witness for C6 with two nodes reporting `(1, 2)` and `(3, 4)`:
the totals are `(4, 6)` and each node got the same 16-byte
`GET_STATS` request. -/
theorem get_telemetry_sums_witness :
    get_telemetry ([(1, 2), (3, 4)].map statsStream)
      = (.ok (4, 6), List.replicate 2 (send_cmd CMD_GET_STATS [])) := by
  have h := get_telemetry_sums [(1, 2), (3, 4)] (by decide)
  simpa using h

/-- C7: a `vcpu_id` at least the sharding-map length (Hive client) or
at least `vcpu_count` (local ctypes `Cluster`) is rejected with
`IndexError` before any bytes are sent on any connection and before
any engine call: the `.error` results carry no sent bytes and no node
is contacted, leaving all state unchanged. -/
theorem id_out_of_range_rejected (st : HiveState) (vcpu_id : Int)
    (instrs : List Instr) (offset size vcpu_count : Nat)
    (h1 : (st.vcpu_map.length : Int) ≤ vcpu_id)
    (h2 : (vcpu_count : Int) ≤ vcpu_id) :
    load_program st vcpu_id instrs = .error .idOutOfRange
    ∧ read_memory st vcpu_id offset size = .error .idOutOfRange
    ∧ cluster_load_program vcpu_count vcpu_id = .error .idOutOfRange := by
  refine ⟨?_, ?_, ?_⟩
  · unfold load_program
    rw [if_pos h1]
  · unfold read_memory
    rw [if_pos h1]
  · unfold cluster_load_program
    rw [if_pos h2]

/-- Witness for C7: on a 1-node cluster with 2 spawned vCPUs,
`vcpu_id = 2` is rejected by both Hive calls and by a local cluster
with `vcpu_count = 2`. -/
theorem id_out_of_range_rejected_witness :
    load_program (spawn (initState 1) 2) 2 [] = .error .idOutOfRange
    ∧ read_memory (spawn (initState 1) 2) 2 0 8 = .error .idOutOfRange
    ∧ cluster_load_program 2 2 = .error .idOutOfRange :=
  id_out_of_range_rejected (spawn (initState 1) 2) 2 [] 0 8 2 (by decide)
    (by decide)

/-- C9: the range check only rejects `vcpu_id ≥ len(vcpu_map)`; every
negative `vcpu_id` with `|vcpu_id| ≤ len(vcpu_map)` passes it and is
routed by Python negative indexing to the entry
`vcpu_map[len(vcpu_map) + vcpu_id]`, so negative ids silently alias
valid vCPUs at the public interface (in both `load_program` and
`read_memory`). -/
theorem negative_id_aliasing (st : HiveState) (vcpu_id : Int)
    (instrs : List Instr) (offset size ni li : Nat)
    (hneg : vcpu_id < 0) (hmag : -vcpu_id ≤ (st.vcpu_map.length : Int))
    (hent : st.vcpu_map[((st.vcpu_map.length : Int) + vcpu_id).toNat]?
      = some (ni, li)) :
    load_program st vcpu_id instrs
      = .ok (ni, send_cmd CMD_LOAD_PROG
          (pack_II li instrs.length ++ encodeInstrs instrs))
    ∧ read_memory st vcpu_id offset size
      = .ok (ni, send_cmd CMD_READ_MEM (pack_IQQ li offset size)) := by
  have hnotge : ¬ ((st.vcpu_map.length : Int) ≤ vcpu_id) := by omega
  have hpy : pyGet st.vcpu_map vcpu_id = some (ni, li) := by
    unfold pyGet
    rw [if_neg (by omega), if_pos (by omega), hent]
  constructor
  · unfold load_program
    rw [if_neg hnotge, hpy]
  · unfold read_memory
    rw [if_neg hnotge, hpy]

/-- Witness for C9: with map `[(0, 0), (0, 1), (1, 0)]` (3 vCPUs on 2
nodes), `vcpu_id = -1` is accepted and routed to the last entry
`(1, 0)` — node 1, local id 0 — by both calls. -/
theorem negative_id_aliasing_witness :
    load_program (spawn (initState 2) 3) (-1) []
      = .ok (1, send_cmd CMD_LOAD_PROG (pack_II 0 ([] : List Instr).length
          ++ encodeInstrs []))
    ∧ read_memory (spawn (initState 2) 3) (-1) 0 8
      = .ok (1, send_cmd CMD_READ_MEM (pack_IQQ 0 0 8)) :=
  negative_id_aliasing (spawn (initState 2) 3) (-1) [] 0 8 1 0 (by decide)
    (by decide) (by decide)

end Zepu

